import Mathlib

/-!
Verification development for the `backend_tools` repository.

Each section embeds one part of the source shallowly in Lean:

* `Hashid` — `src/helper/hashid.py` (reversible numeric-ID obfuscator);
* `Tools` — `src/backend_rest_api/tools.py` (token generation and validation);
* `WhereB` — `src/backend_tools/builder/where.py` (WHERE expression builder);
* `QueryB` — `src/backend_tools/builder/query.py` (UPDATE statement builder);
* `Config` — `src/backend_tools/configuration.py` (layered configuration);
* `AccessToken` — `src/backend_rest_api/access_token.py` (session tokens);
* `Auth` — `src/controller/auth.py` with the user store modelled from the
  specification where the datasource bodies are absent from the tree.
-/

namespace Hashid

/-- `power = 23` from `helper/hashid.py`. -/
def power : Nat := 23

/-- `base = 1 << power`. -/
def base : Nat := 1 <<< power

/-- `half = (power + 1) // 2`. -/
def half : Nat := (power + 1) / 2

/-- `multiplier = math.floor(base * golden) // 2 * 2 + 1` with `golden = 0.618`.
The double-precision product `8388608 * 0.618` lies strictly between
`5184159` and `5184160`, so `math.floor` yields `5184159`; that value is odd,
so the odd-rounding `// 2 * 2 + 1` leaves it unchanged. -/
def multiplier : Nat := 5184159

/-- Modular exponentiation by iterated squaring: the semantics of Python's
three-argument `pow(b, e, m)`.  The first argument is descent fuel; each
step halves the exponent, so any `fuel ≥ e` is sufficient. -/
def powModAux : Nat → Nat → Nat → Nat → Nat
  | 0, _, _, m => 1 % m
  | fuel + 1, b, e, m =>
    if e = 0 then 1 % m
    else
      let r := powModAux fuel b (e / 2) m
      if e % 2 = 0 then r * r % m else r * r % m * b % m

/-- Python's `pow(b, e, m)`. -/
def powMod (b e m : Nat) : Nat := powModAux e b e m

/-- `inverse = pow(multiplier, base - 1, 2 * base)`. -/
def inverse : Nat := powMod multiplier (base - 1) (2 * base)

/-- The final mixing step `x = (x >> half) ^ x` of `shuffle`. -/
def finStep (y : Nat) : Nat := (y >>> half) ^^^ y

/-- One multiplicative round `x = (((x >> half) ^ x) * mult) % base` of
`shuffle`. -/
def mixStep (y m : Nat) : Nat := (((y >>> half) ^^^ y) * m) % base

/-- `shuffle(x, mult)` from `helper/hashid.py`: split off the high part
`n = x // base`, apply two multiplicative rounds and a final xor-fold to the
low part, and re-add the high part. -/
def shuffle (x mult : Nat) : Nat :=
  let n := x / base
  let x1 := x % base
  let x2 := mixStep x1 mult
  let x3 := mixStep x2 mult
  let x4 := finStep x3
  x4 + base * n

/-- Lowercase hexadecimal digit characters, as produced by `format(x, 'x')`. -/
def hexDigitChar : Nat → Char
  | 0 => '0'
  | 1 => '1'
  | 2 => '2'
  | 3 => '3'
  | 4 => '4'
  | 5 => '5'
  | 6 => '6'
  | 7 => '7'
  | 8 => '8'
  | 9 => '9'
  | 10 => 'a'
  | 11 => 'b'
  | 12 => 'c'
  | 13 => 'd'
  | 14 => 'e'
  | _ => 'f'

/-- Value of one hexadecimal digit character, as consumed by `int(s, 16)`. -/
def hexCharVal : Char → Nat
  | '1' => 1
  | '2' => 2
  | '3' => 3
  | '4' => 4
  | '5' => 5
  | '6' => 6
  | '7' => 7
  | '8' => 8
  | '9' => 9
  | 'a' => 10
  | 'b' => 11
  | 'c' => 12
  | 'd' => 13
  | 'e' => 14
  | 'f' => 15
  | _ => 0

/-- Little-endian base-16 digits of `n`.  The first argument is descent
fuel; each step divides by 16, so any `fuel ≥ n` is sufficient. -/
def hexDigitsAux : Nat → Nat → List Nat
  | 0, _ => []
  | fuel + 1, n => if n = 0 then [] else n % 16 :: hexDigitsAux fuel (n / 16)

/-- Little-endian base-16 digits of `n` (empty for `0`). -/
def hexDigits (n : Nat) : List Nat := hexDigitsAux n n

/-- Rendering of `format(x, 'x')`: minimal lowercase hexadecimal, `"0"` for
zero. -/
def toHexString (n : Nat) : String :=
  if n = 0 then "0" else String.mk ((hexDigits n).reverse.map hexDigitChar)

/-- Parsing of `int(s, 16)` restricted to lowercase hexadecimal strings (the
only strings this repository ever feeds it, namely outputs of `hashid`). -/
def fromHexString (s : String) : Nat :=
  s.data.foldl (fun a c => 16 * a + hexCharVal c) 0

/-- `hashid(x)` from `helper/hashid.py`. -/
def hashid (x : Nat) : String := toHexString (shuffle x multiplier + base)

/-- `unhashid(x)` from `helper/hashid.py`.  On outputs of `hashid` the
parsed value is at least `base`, so natural subtraction agrees with Python's
integer subtraction. -/
def unhashid (s : String) : Nat := shuffle (fromHexString s - base) inverse

/-- Character class of lowercase hexadecimal digits. -/
def isLowerHexChar (c : Char) : Bool :=
  ('0' ≤ c && c ≤ '9') || ('a' ≤ c && c ≤ 'f')

theorem base_pos : 0 < base := by decide

theorem base_eq_pow : base = 2 ^ 23 := by decide

/-- Value of a little-endian base-16 digit list. -/
def hexListVal (l : List Nat) : Nat := l.foldr (fun d a => d + 16 * a) 0

theorem hexDigitsAux_val (fuel : Nat) :
    ∀ n, n ≤ fuel → hexListVal (hexDigitsAux fuel n) = n := by
  induction fuel with
  | zero =>
    intro n hn
    have h0 : n = 0 := by omega
    subst h0; rfl
  | succ fuel ih =>
    intro n hn
    by_cases h0 : n = 0
    · subst h0; simp [hexDigitsAux, hexListVal]
    · have hdiv : n / 16 ≤ fuel := by
        have : n / 16 < n := Nat.div_lt_self (Nat.pos_of_ne_zero h0) (by omega)
        omega
      simp only [hexDigitsAux, h0, if_false, hexListVal, List.foldr_cons]
      have hv := ih (n / 16) hdiv
      unfold hexListVal at hv
      rw [hv]
      omega

theorem hexDigitsAux_lt (fuel : Nat) :
    ∀ n, ∀ d ∈ hexDigitsAux fuel n, d < 16 := by
  induction fuel with
  | zero => intro n d hd; simp [hexDigitsAux] at hd
  | succ fuel ih =>
    intro n d hd
    by_cases h0 : n = 0
    · subst h0; simp [hexDigitsAux] at hd
    · simp only [hexDigitsAux, h0, if_false, List.mem_cons] at hd
      rcases hd with h | h
      · subst h; exact Nat.mod_lt _ (by omega)
      · exact ih _ _ h

theorem hexCharVal_hexDigitChar : ∀ d, d < 16 → hexCharVal (hexDigitChar d) = d := by
  decide

theorem parse_render_digits (L : List Nat) (h : ∀ d ∈ L, d < 16) :
    List.foldl (fun a c => 16 * a + hexCharVal c) 0 (L.reverse.map hexDigitChar)
      = hexListVal L := by
  induction L with
  | nil => rfl
  | cons d t ih =>
    have hd : d < 16 := h d (List.mem_cons_self d t)
    have ht : ∀ x ∈ t, x < 16 := fun x hx => h x (List.mem_cons_of_mem d hx)
    simp only [List.reverse_cons, List.map_append, List.map_cons, List.map_nil,
      List.foldl_append, List.foldl_cons, List.foldl_nil]
    rw [ih ht, hexCharVal_hexDigitChar d hd]
    simp only [hexListVal, List.foldr_cons]
    omega

/-- Parsing inverts rendering: `int(format(n, 'x'), 16) = n`. -/
theorem fromHex_toHex (n : Nat) : fromHexString (toHexString n) = n := by
  by_cases h0 : n = 0
  · subst h0; rfl
  · unfold toHexString fromHexString
    simp only [h0, if_false]
    unfold hexDigits
    rw [parse_render_digits _ (hexDigitsAux_lt n n)]
    exact hexDigitsAux_val n n (Nat.le_refl n)

theorem half_eq : half = 12 := rfl

theorem finStep_lt (y : Nat) (h : y < base) : finStep y < base := by
  rw [base_eq_pow] at h ⊢
  refine Nat.xor_lt_two_pow ?_ h
  calc y >>> half ≤ y := by
        rw [Nat.shiftRight_eq_div_pow]; exact Nat.div_le_self _ _
    _ < 2 ^ 23 := h

theorem mixStep_lt (y m : Nat) : mixStep y m < base := Nat.mod_lt _ base_pos

/-- The xor-fold `y ↦ (y >> 12) ^ y` is an involution below `2 ^ 23`. -/
theorem finStep_finStep (y : Nat) (h : y < base) : finStep (finStep y) = y := by
  rw [base_eq_pow] at h
  unfold finStep
  rw [half_eq]
  apply Nat.eq_of_testBit_eq
  intro i
  have hhi : ∀ j, 23 ≤ j → y.testBit j = false := by
    intro j hj
    exact Nat.testBit_eq_false_of_lt (lt_of_lt_of_le h (Nat.pow_le_pow_right (by omega) hj))
  simp only [Nat.testBit_xor, Nat.testBit_shiftRight]
  rw [show 12 + (12 + i) = 24 + i by omega, hhi (24 + i) (by omega)]
  cases hb : y.testBit (12 + i) <;> cases hc : y.testBit i <;> simp

theorem mixStep_eq_fin (y m : Nat) : mixStep y m = finStep y * m % base := rfl

theorem mult_inverse_mod : multiplier * inverse % base = 1 := by decide

theorem mult_inv_cancel (u : Nat) (h : u < base) :
    u * multiplier % base * inverse % base = u := by
  rw [Nat.mod_mul_mod, Nat.mul_assoc, Nat.mul_mod, mult_inverse_mod, Nat.mul_one,
    Nat.mod_mod_of_dvd _ (dvd_refl base), Nat.mod_eq_of_lt h]

/-- Inverting the two multiplicative rounds and the xor-folds on the low
part: applying the three `shuffle` steps with `inverse` undoes applying them
with `multiplier`. -/
theorem low_roundtrip (y : Nat) (h : y < base) :
    finStep (mixStep (mixStep
      (finStep (mixStep (mixStep y multiplier) multiplier)) inverse) inverse) = y := by
  have h1 : mixStep y multiplier < base := mixStep_lt _ _
  have h2 : mixStep (mixStep y multiplier) multiplier < base := mixStep_lt _ _
  have hf1 : finStep (mixStep y multiplier) < base := finStep_lt _ h1
  have hfy : finStep y < base := finStep_lt _ h
  have step1 : mixStep (finStep (mixStep (mixStep y multiplier) multiplier)) inverse
      = finStep (mixStep y multiplier) := by
    rw [mixStep_eq_fin, finStep_finStep _ h2, mixStep_eq_fin (mixStep y multiplier),
      mult_inv_cancel _ hf1]
  rw [step1]
  have step2 : mixStep (finStep (mixStep y multiplier)) inverse = finStep y := by
    rw [mixStep_eq_fin, finStep_finStep _ h1, mixStep_eq_fin y, mult_inv_cancel _ hfy]
  rw [step2, finStep_finStep _ h]

/-- `shuffle(·, inverse)` inverts `shuffle(·, multiplier)` on every
natural number, the high part `x // base` being carried through unchanged. -/
theorem shuffle_shuffle (x : Nat) : shuffle (shuffle x multiplier) inverse = x := by
  have hy : x % base < base := Nat.mod_lt _ base_pos
  have hLlt : finStep (mixStep (mixStep (x % base) multiplier) multiplier) < base :=
    finStep_lt _ (mixStep_lt _ _)
  show finStep (mixStep (mixStep ((finStep (mixStep (mixStep (x % base) multiplier) multiplier)
      + base * (x / base)) % base) inverse) inverse)
    + base * ((finStep (mixStep (mixStep (x % base) multiplier) multiplier)
      + base * (x / base)) / base) = x
  rw [Nat.add_mul_mod_self_left, Nat.mod_eq_of_lt hLlt,
    Nat.add_mul_div_left _ _ base_pos, Nat.div_eq_of_lt hLlt, Nat.zero_add,
    low_roundtrip (x % base) hy, Nat.mod_add_div]

/-- The full round trip `unhashid(hashid(x)) = x`, shared by the bounded and
unbounded claims. -/
theorem unhashid_hashid (x : Nat) : unhashid (hashid x) = x := by
  unfold unhashid hashid
  rw [fromHex_toHex, Nat.add_sub_cancel, shuffle_shuffle]

/-- C4: for every `x` in `[0, 2^23)`, `unhashid (hashid x) = x`; in
particular `hashid 0` and `hashid 1` are distinct lowercase hexadecimal
strings and decode back to `0` and `1` respectively. -/
theorem claim_C4 :
    (∀ x, x < 2 ^ 23 → unhashid (hashid x) = x) ∧
    hashid 0 ≠ hashid 1 ∧
    (hashid 0).data.all isLowerHexChar = true ∧
    (hashid 1).data.all isLowerHexChar = true ∧
    unhashid (hashid 0) = 0 ∧ unhashid (hashid 1) = 1 := by
  refine ⟨fun x _ => unhashid_hashid x, ?_, ?_, ?_, ?_, ?_⟩ <;> decide

/-- Witness for C4 at the concrete input `x = 5`. -/
theorem claim_C4_witness : unhashid (hashid 5) = 5 :=
  claim_C4.1 5 (by decide)

/-- C10: the hash-ID round trip holds for every natural number, not only
those below `2^23`: the high part `x // base` is carried through both
transforms unchanged and the low part is permuted bijectively mod `2^23`. -/
theorem claim_C10 (x : Nat) : unhashid (hashid x) = x := unhashid_hashid x

end Hashid

namespace Tools

/-- Character class `[a-zA-Z0-9_-]` of `RE_ABSTRACT_TOKEN` in
`backend_rest_api/tools.py`. -/
def isTokenChar (c : Char) : Bool :=
  ('a' ≤ c && c ≤ 'z') || ('A' ≤ c && c ≤ 'Z') || ('0' ≤ c && c ≤ '9') ||
    c = '_' || c = '-'

/-- `DEF_TOKEN_LENGTH` from `backend_rest_api/tools.py`. -/
def DEF_TOKEN_LENGTH : Nat := 16

/-- `is_token_valid(token, length)`: the value (always string-typed in this
embedding) must have exactly the requested length and fully match
`^[a-zA-Z0-9_-]+$`; the `+` makes the empty string invalid. -/
def is_token_valid (token : String) (length : Nat) : Bool :=
  token.length == length && token.length != 0 && token.data.all isTokenChar

/-- The eight bits of a byte, most significant first. -/
def byteBits (b : Nat) : List Bool :=
  [b.testBit 7, b.testBit 6, b.testBit 5, b.testBit 4,
   b.testBit 3, b.testBit 2, b.testBit 1, b.testBit 0]

/-- Bit stream of a byte string, most significant bit first. -/
def bytesBits (bs : List Nat) : List Bool := bs.flatMap byteBits

def bitVal (b : Bool) : Nat := if b then 1 else 0

/-- Value of a bit list, most significant bit first. -/
def bitsVal (l : List Bool) : Nat := l.foldl (fun a b => 2 * a + bitVal b) 0

/-- Pad a final bit group on the right with zero bits to width `k`
(RFC 4648 final-quantum padding, as the Python `base64` module performs). -/
def padGroup (k : Nat) (l : List Bool) : List Bool :=
  l ++ List.replicate (k - l.length) false

/-- Number of `k`-bit groups covering `n` bits. -/
def groupCount (k n : Nat) : Nat := (n + k - 1) / k

/-- The `i`-th `k`-bit group of a bit stream, zero-padded at the end. -/
def groupVal (k : Nat) (bits : List Bool) (i : Nat) : Nat :=
  bitsVal (padGroup k ((bits.drop (i * k)).take k))

/-- Alphabet-encode a byte string at `k` bits per character: the data
characters of RFC 4648 base-16/32/64 before `'='` padding is appended. -/
def encodeChars (k : Nat) (alphabet : List Char) (bs : List Nat) : List Char :=
  (List.range (groupCount k (8 * bs.length))).map
    (fun i => alphabet.getD (groupVal k (bytesBits bs) i) 'A')

/-- Append `'='` padding up to a multiple of `padTo` characters (`8` for
base-32, `4` for base-64), as the Python `base64` module does. -/
def padEq (padTo : Nat) (l : List Char) : List Char :=
  l ++ List.replicate ((padTo - l.length % padTo) % padTo) '='

def B16_ALPHABET : List Char := "0123456789ABCDEF".data

def B32_ALPHABET : List Char := "ABCDEFGHIJKLMNOPQRSTUVWXYZ234567".data

/-- Standard base-64 alphabet with `'+'`/`'/'` replaced by the `altchars`
pair (Python `b64encode(data, altchars)`). -/
def B64_ALPHABET (alt1 alt2 : Char) : List Char :=
  "ABCDEFGHIJKLMNOPQRSTUVWXYZabcdefghijklmnopqrstuvwxyz0123456789".data ++
    [alt1, alt2]

/-- Python `b16encode` (uppercase hexadecimal, no padding). -/
def b16encode (bs : List Nat) : List Char := encodeChars 4 B16_ALPHABET bs

/-- Python `b32encode`. -/
def b32encode (bs : List Nat) : List Char := padEq 8 (encodeChars 5 B32_ALPHABET bs)

/-- Python `b64encode(data, altchars)`. -/
def b64encode (bs : List Nat) (alt1 alt2 : Char) : List Char :=
  padEq 4 (encodeChars 6 (B64_ALPHABET alt1 alt2) bs)

/-- Big-endian four-byte rendering of the rounded timestamp
(`round(time()).to_bytes(4, byteorder='big')`). -/
def timeBytes4 (t : Nat) : List Nat :=
  [t / 2 ^ 24 % 256, t / 2 ^ 16 % 256, t / 2 ^ 8 % 256, t % 256]

/-- `generate_token(token_length, base, reverse, altchars)` from
`backend_rest_api/tools.py`.  The wall-clock time and the stream of random
bytes (`randint(1, 255)` per loop index) are passed explicitly as the
oracles `t` and `rand`. -/
def generate_token (token_length base : Nat) (reverse : Bool) (alt1 alt2 : Char)
    (t : Nat) (rand : Nat → Nat) : String :=
  let base := if base = 16 ∨ base = 32 ∨ base = 64 then base else 16
  let token_length := if token_length < 16 then 16 else token_length
  let bits := if base = 64 then 6 else if base = 32 then 5 else 4
  let dv := bits * token_length / 8
  let md := bits * token_length % 8
  let ext_len := dv - 4 + (if md ≠ 0 then 1 else 0)
  let token_bytes := timeBytes4 t ++ (List.range ext_len).map rand
  let encoded :=
    if base = 64 then b64encode token_bytes alt1 alt2
    else if base = 32 then b32encode token_bytes
    else b16encode token_bytes
  let result := encoded.take token_length
  String.mk (if reverse then result.reverse else result)

theorem bitsVal_lt (l : List Bool) : bitsVal l < 2 ^ l.length := by
  suffices h : ∀ a, List.foldl (fun a b => 2 * a + bitVal b) a l < 2 ^ l.length * (a + 1) by
    simpa [bitsVal] using h 0
  induction l with
  | nil => intro a; simp [Nat.lt_succ_self a]
  | cons b tl ih =>
    intro a
    simp only [List.foldl_cons, List.length_cons]
    calc List.foldl (fun a b => 2 * a + bitVal b) (2 * a + bitVal b) tl
        < 2 ^ tl.length * (2 * a + bitVal b + 1) := ih _
      _ ≤ 2 ^ tl.length * (2 * (a + 1)) := by
          refine Nat.mul_le_mul_left _ ?_
          cases b <;> simp [bitVal] <;> omega
      _ = 2 ^ (tl.length + 1) * (a + 1) := by ring

theorem groupVal_lt (k : Nat) (bits : List Bool) (i : Nat) :
    groupVal k bits i < 2 ^ k := by
  have htake : ((bits.drop (i * k)).take k).length ≤ k := by
    rw [List.length_take]; exact Nat.min_le_left _ _
  have hlen : (padGroup k ((bits.drop (i * k)).take k)).length = k := by
    simp only [padGroup, List.length_append, List.length_replicate]
    omega
  have := bitsVal_lt (padGroup k ((bits.drop (i * k)).take k))
  rw [hlen] at this
  exact this

theorem encodeChars_length (k : Nat) (alphabet : List Char) (bs : List Nat) :
    (encodeChars k alphabet bs).length = groupCount k (8 * bs.length) := by
  simp [encodeChars]

theorem encodeChars_mem (k : Nat) (alphabet : List Char) (bs : List Nat)
    (hk : 2 ^ k ≤ alphabet.length) :
    ∀ c ∈ encodeChars k alphabet bs, c ∈ alphabet := by
  intro c hc
  simp only [encodeChars, List.mem_map, List.mem_range] at hc
  obtain ⟨i, _, rfl⟩ := hc
  have hlt : groupVal k (bytesBits bs) i < alphabet.length :=
    lt_of_lt_of_le (groupVal_lt k (bytesBits bs) i) hk
  rw [List.getD_eq_getElem alphabet 'A' hlt]
  exact alphabet.get_mem _ _

theorem take_append_spec (xs ys : List Char) (L : Nat) (hL : L ≤ xs.length)
    (hx : ∀ c ∈ xs, isTokenChar c = true) :
    ((xs ++ ys).take L).length = L ∧
      ∀ c ∈ (xs ++ ys).take L, isTokenChar c = true := by
  rw [List.take_append_of_le_length hL]
  constructor
  · rw [List.length_take]; omega
  · intro c hc
    exact hx c (List.mem_of_mem_take hc)

theorem token_bytes_length (t : Nat) (rand : Nat → Nat) (ext_len : Nat) :
    (timeBytes4 t ++ (List.range ext_len).map rand).length = 4 + ext_len := by
  simp [timeBytes4]
  omega

theorem bytesBits_length (bs : List Nat) : (bytesBits bs).length = 8 * bs.length := by
  induction bs with
  | nil => rfl
  | cons b tl ih =>
    simp only [bytesBits, List.flatMap_cons, List.length_append] at ih ⊢
    rw [ih]
    simp [byteBits, List.length_cons]
    omega

theorem encode_take_spec (k L : Nat) (alphabet : List Char) (bs : List Nat)
    (hk : 2 ^ k ≤ alphabet.length)
    (halph : ∀ c ∈ alphabet, isTokenChar c = true)
    (hcount : L ≤ groupCount k (8 * bs.length)) :
    ((encodeChars k alphabet bs).take L).length = L ∧
      ∀ c ∈ (encodeChars k alphabet bs).take L, isTokenChar c = true := by
  have hlen : L ≤ (encodeChars k alphabet bs).length := by
    rw [encodeChars_length]; exact hcount
  constructor
  · rw [List.length_take]; omega
  · intro c hc
    exact halph c (encodeChars_mem k alphabet bs hk c (List.mem_of_mem_take hc))

theorem encode_pad_take_spec (k padTo L : Nat) (alphabet : List Char) (bs : List Nat)
    (hk : 2 ^ k ≤ alphabet.length)
    (halph : ∀ c ∈ alphabet, isTokenChar c = true)
    (hcount : L ≤ groupCount k (8 * bs.length)) :
    ((padEq padTo (encodeChars k alphabet bs)).take L).length = L ∧
      ∀ c ∈ (padEq padTo (encodeChars k alphabet bs)).take L, isTokenChar c = true := by
  have hlen : L ≤ (encodeChars k alphabet bs).length := by
    rw [encodeChars_length]; exact hcount
  have hmem : ∀ c ∈ encodeChars k alphabet bs, isTokenChar c = true := fun c hc =>
    halph c (encodeChars_mem k alphabet bs hk c hc)
  unfold padEq
  exact take_append_spec _ _ L hlen hmem

theorem b16_alphabet_token : ∀ c ∈ B16_ALPHABET, isTokenChar c = true := by decide

theorem b32_alphabet_token : ∀ c ∈ B32_ALPHABET, isTokenChar c = true := by decide

theorem b64_alphabet_token : ∀ c ∈ B64_ALPHABET '-' '_', isTokenChar c = true := by decide

theorem count16b (L : Nat) (hL : 16 ≤ L) :
    L ≤ groupCount 4 (8 * (4 + (4 * L / 8 - 4 + if 4 * L % 8 = 0 then 0 else 1))) := by
  unfold groupCount
  by_cases h : 4 * L % 8 = 0 <;> simp [h] <;> omega

theorem count32b (L : Nat) (hL : 16 ≤ L) :
    L ≤ groupCount 5 (8 * (4 + (5 * L / 8 - 4 + if 5 * L % 8 = 0 then 0 else 1))) := by
  unfold groupCount
  by_cases h : 5 * L % 8 = 0 <;> simp [h] <;> omega

theorem count64b (L : Nat) (hL : 16 ≤ L) :
    L ≤ groupCount 6 (8 * (4 + (6 * L / 8 - 4 + if 6 * L % 8 = 0 then 0 else 1))) := by
  unfold groupCount
  by_cases h : 6 * L % 8 = 0 <;> simp [h] <;> omega

theorem core16 (len : Nat) (rev : Bool) (t : Nat) (rand : Nat → Nat) :
    (generate_token len 16 rev '-' '_' t rand).data.length = max 16 len ∧
    ∀ c ∈ (generate_token len 16 rev '-' '_' t rand).data, isTokenChar c = true := by
  have hmax : (if len < 16 then 16 else len) = max 16 len := by split <;> omega
  simp only [generate_token, hmax]
  norm_num
  cases rev <;>
    simp only [Bool.false_eq_true, if_false, if_true, List.length_reverse, List.mem_reverse] <;>
  · simp only [b16encode]
    exact encode_take_spec 4 (max 16 len) B16_ALPHABET _ (by decide) b16_alphabet_token
      (by rw [token_bytes_length]; exact count16b _ (Nat.le_max_left 16 len))

theorem core32 (len : Nat) (rev : Bool) (t : Nat) (rand : Nat → Nat) :
    (generate_token len 32 rev '-' '_' t rand).data.length = max 16 len ∧
    ∀ c ∈ (generate_token len 32 rev '-' '_' t rand).data, isTokenChar c = true := by
  have hmax : (if len < 16 then 16 else len) = max 16 len := by split <;> omega
  simp only [generate_token, hmax]
  norm_num
  cases rev <;>
    simp only [Bool.false_eq_true, if_false, if_true, List.length_reverse, List.mem_reverse] <;>
  · simp only [b32encode]
    exact encode_pad_take_spec 5 8 (max 16 len) B32_ALPHABET _ (by decide) b32_alphabet_token
      (by rw [token_bytes_length]; exact count32b _ (Nat.le_max_left 16 len))

theorem core64 (len : Nat) (rev : Bool) (t : Nat) (rand : Nat → Nat) :
    (generate_token len 64 rev '-' '_' t rand).data.length = max 16 len ∧
    ∀ c ∈ (generate_token len 64 rev '-' '_' t rand).data, isTokenChar c = true := by
  have hmax : (if len < 16 then 16 else len) = max 16 len := by split <;> omega
  simp only [generate_token, hmax]
  norm_num
  cases rev <;>
    simp only [Bool.false_eq_true, if_false, if_true, List.length_reverse, List.mem_reverse] <;>
  · simp only [b64encode]
    exact encode_pad_take_spec 6 4 (max 16 len) (B64_ALPHABET '-' '_') _ (by decide)
      b64_alphabet_token
      (by rw [token_bytes_length]; exact count64b _ (Nat.le_max_left 16 len))

/-- C5: for every base in `{16, 32, 64}` and every requested length,
`generate_token` returns a string of exactly `max 16 length` characters
drawn only from `[A-Za-z0-9_-]` (lengths below 16 are normalized up to 16),
and `is_token_valid` accepts the result at that effective length.  The
timestamp and the random byte stream are arbitrary oracles. -/
theorem claim_C5 (len base : Nat) (rev : Bool) (t : Nat) (rand : Nat → Nat)
    (hb : base = 16 ∨ base = 32 ∨ base = 64) :
    (generate_token len base rev '-' '_' t rand).length = max 16 len ∧
    (∀ c ∈ (generate_token len base rev '-' '_' t rand).data, isTokenChar c = true) ∧
    is_token_valid (generate_token len base rev '-' '_' t rand) (max 16 len) = true := by
  have core : (generate_token len base rev '-' '_' t rand).data.length = max 16 len ∧
      ∀ c ∈ (generate_token len base rev '-' '_' t rand).data, isTokenChar c = true := by
    rcases hb with hb | hb | hb <;> subst hb
    · exact core16 len rev t rand
    · exact core32 len rev t rand
    · exact core64 len rev t rand
  have hlen : (generate_token len base rev '-' '_' t rand).length = max 16 len := core.1
  refine ⟨hlen, core.2, ?_⟩
  unfold is_token_valid
  simp only [Bool.and_eq_true, beq_iff_eq, bne_iff_ne, List.all_eq_true]
  refine ⟨⟨hlen, ?_⟩, core.2⟩
  rw [hlen]
  omega

/-- Witness for C5 at the concrete input `generate_token(5, 16)` (also the
claim's requested-length-below-16 instance). -/
theorem claim_C5_witness :
    (generate_token 5 16 false '-' '_' 0 (fun _ => 1)).length = max 16 5 ∧
    (∀ c ∈ (generate_token 5 16 false '-' '_' 0 (fun _ => 1)).data, isTokenChar c = true) ∧
    is_token_valid (generate_token 5 16 false '-' '_' 0 (fun _ => 1)) (max 16 5) = true :=
  claim_C5 5 16 false 0 (fun _ => 1) (Or.inl rfl)

end Tools

namespace WhereB

/-- Bound SQL parameter values (`ValueType` in `builder/where.py`; `none`
is Python `None`, `tup` a tuple). -/
inductive Value where
  | str (s : String)
  | int (n : Int)
  | tup (l : List Value)
  | none

/-- Operation tags (`EXPR_OPS` in `builder/where.py`). -/
inductive Op where
  | raw
  | eq
  | neq
  | gt
  | lt
  | gte
  | lte
  | inOp
  | notinOp
  | like
  | ilike
  | containsOp
  | containedBy
  | overlaps
  | andOp
  | orOp
  | unary
  | empty
  | emptytuple
deriving DecidableEq

/-- SQL spelling of a comparison operator (the keys of `OP_MAP`). -/
def opSQL : Op → String
  | .eq => "="
  | .neq => "!="
  | .gt => ">"
  | .lt => "<"
  | .gte => ">="
  | .lte => "<="
  | .inOp => "IN"
  | .notinOp => "NOT IN"
  | .like => "LIKE"
  | .ilike => "ILIKE"
  | .containsOp => "@>"
  | .containedBy => "<@"
  | .overlaps => "&&"
  | _ => ""

/-- Short code of a comparison operator (the values of `OP_MAP`), used in
generated parameter names. -/
def opShort : Op → String
  | .eq => "eq"
  | .neq => "neq"
  | .gt => "gt"
  | .lt => "lt"
  | .gte => "gte"
  | .lte => "lte"
  | .inOp => "in"
  | .notinOp => "notin"
  | .like => "like"
  | .ilike => "ilike"
  | .containsOp => "contains"
  | .containedBy => "contained_by"
  | .overlaps => "overlaps"
  | _ => ""

/-- An `Expr` node: operation tag, rendered SQL text and bound parameters
(a Python dict, modelled as an insertion-ordered association list). -/
structure Expr where
  op : Op
  sql : String
  params : List (String × Value)

/-- A right-hand operand as passed in Python: either a plain value or an
already-built expression. -/
inductive Operand where
  | val (v : Value)
  | expr (e : Expr)

/-- A `Field` reference: raw column name plus optional table alias (the
empty string models Python's falsy `None`/`''` alias). -/
structure Field where
  name : String
  tableAlias : String

/-- `Field.__str__`: `[alias.]name`. -/
def Field.render (f : Field) : String :=
  if f.tableAlias = "" then f.name else f.tableAlias ++ "." ++ f.name

/-- `Expr._generate_param_expr`: wrap a scalar into a `Param` leaf with a
globally unique name built from the field-name prefix, the operator's short
code and the incremented global counter (`Param.n_params`, threaded
explicitly). -/
def generateParamExpr (pfx : String) (op : Op) (v : Value) (n : Nat) : Expr × Nat :=
  let name := pfx ++ "-" ++ opShort op ++ "-" ++ toString (n + 1)
  ({ op := .unary, sql := "%(" ++ name ++ ")s", params := [(name, v)] }, n + 1)

/-- `Expr._prepare_other`: `None` collapses to the `empty` sentinel, an
empty tuple to `emptytuple`, an `Expr` passes through, and any other value
becomes a bound parameter.  (The one-shot `timestamp` transformer of
`ExprExt` is identity here: no claim exercises it.) -/
def prepareOther (pfx : String) (op : Op) (other : Operand) (n : Nat) : Expr × Nat :=
  match other with
  | .val .none => ({ op := .empty, sql := "", params := [] }, n)
  | .val (.tup []) => ({ op := .emptytuple, sql := "", params := [] }, n)
  | .expr e => (e, n)
  | .val v => generateParamExpr pfx op v n

/-- `Expr.__compose_cmp` on a field: an empty right-hand side collapses the
whole comparison to the `empty` sentinel, otherwise render
`<field> <op> <other>` with the operand's parameters. -/
def composeCmp (f : Field) (op : Op) (other : Operand) (n : Nat) : Expr × Nat :=
  let p := prepareOther f.name op other n
  if p.1.op = .empty then ({ op := .empty, sql := "", params := [] }, p.2)
  else ({ op := op, sql := f.render ++ " " ++ opSQL op ++ " " ++ p.1.sql,
          params := p.1.params }, p.2)

/-- `Field.__eq__`, i.e. `field == value`. -/
def Field.eqv (f : Field) (other : Operand) (n : Nat) : Expr × Nat :=
  composeCmp f .eq other n

/-- The single argument of `isin`/`notin` as passed in Python: `None`, an
iterable of values (converted by `tuple(...)`), or a subquery `Expr`. -/
inductive InArg where
  | noneArg
  | iter (l : List Value)
  | sub (e : Expr)

/-- `Expr.__prepare_iterable` for the one-argument call shape: `None` gives
the `empty` sentinel, a subquery is parenthesized (its parameters are not
propagated, as in the source), and an iterable is tupled and passed to
`_prepare_other` (an empty tuple thus yields `emptytuple`). -/
def prepareIterableOne (f : Field) (op : Op) (a : InArg) (n : Nat) : Expr × Nat :=
  match a with
  | .noneArg => ({ op := .empty, sql := "", params := [] }, n)
  | .sub e => ({ op := op, sql := "(" ++ e.sql ++ ")", params := [] }, n)
  | .iter l => prepareOther f.name op (.val (.tup l)) n

/-- `Expr.notnull`: `<field> IS NOT NULL` with the default `raw` tag and no
parameters. -/
def Field.notnull (f : Field) : Expr :=
  { op := .raw, sql := f.render ++ " IS NOT NULL", params := [] }

/-- `Expr.__compose_in`: empty operand vanishes; an empty tuple collapses
`IN` to the constant `FALSE` and `NOT IN` to `IS NOT NULL`; otherwise
render `<field> <op> <other>`. -/
def composeIn (f : Field) (op : Op) (a : InArg) (n : Nat) : Expr × Nat :=
  let p := prepareIterableOne f op a n
  if p.1.op = .empty then ({ op := .empty, sql := "", params := [] }, p.2)
  else if p.1.op = .emptytuple then
    if op = .inOp then ({ op := .raw, sql := "FALSE", params := [] }, p.2)
    else (f.notnull, p.2)
  else ({ op := op, sql := f.render ++ " " ++ opSQL op ++ " " ++ p.1.sql,
          params := p.1.params }, p.2)

/-- `Expr.isin`. -/
def Field.isin (f : Field) (a : InArg) (n : Nat) : Expr × Nat := composeIn f .inOp a n

/-- `Expr.notin`. -/
def Field.notin (f : Field) (a : InArg) (n : Nat) : Expr × Nat := composeIn f .notinOp a n

/-- The table-namespace object `T`: creates `Field` accessors, applying the
optional field-rename map. -/
structure T where
  tblAlias : String
  fieldmap : List (String × String)

/-- `T.__getattr__`: build the field for an attribute name. -/
def T.field (tb : T) (item : String) : Field :=
  { name := match tb.fieldmap.find? (fun kv => kv.1 == item) with
            | some kv => kv.2
            | Option.none => item,
    tableAlias := tb.tblAlias }

/-- `where(expr_func, alias)` for the default single-table case: returns
`("TRUE", {})` when no predicate function is given or when the composed
expression degenerates to the `empty` sentinel, else the rendered SQL and
parameters.  The predicate threads the global parameter counter. -/
def where_ (exprFunc : Option (T → Nat → Expr × Nat)) (al : String) (n : Nat) :
    (String × List (String × Value)) × Nat :=
  match exprFunc with
  | Option.none => (("TRUE", []), n)
  | some f =>
    let tb : T := { tblAlias := al, fieldmap := [] }
    let p := f tb n
    if p.1.op = .empty then (("TRUE", []), p.2) else ((p.1.sql, p.1.params), p.2)

/-- C7: `where(lambda t: t.name == None)` returns exactly `("TRUE", {})`;
in general, `where` applied to any predicate whose composed expression
degenerates to the `empty` sentinel, and `where` with no predicate
function, both return `("TRUE", {})`. -/
theorem claim_C7 :
    (∀ n : Nat, (where_ (some (fun tb n => (tb.field "name").eqv (.val .none) n)) "" n).1
      = ("TRUE", [])) ∧
    (∀ (f : T → Nat → Expr × Nat) (al : String) (n : Nat),
      (f { tblAlias := al, fieldmap := [] } n).1.op = .empty →
      (where_ (some f) al n).1 = ("TRUE", [])) ∧
    (∀ (al : String) (n : Nat), where_ Option.none al n = (("TRUE", []), n)) := by
  refine ⟨fun n => rfl, ?_, fun al n => rfl⟩
  intro f al n h
  unfold where_
  simp only [h, if_pos, reduceIte]

/-- Witness for C7: the degenerate-predicate branch applied to the concrete
predicate that returns the `empty` sentinel outright. -/
theorem claim_C7_witness :
    (where_ (some (fun _ n => ({ op := .empty, sql := "", params := [] }, n))) "u" 3).1
      = ("TRUE", []) :=
  claim_C7.2.1 (fun _ n => ({ op := .empty, sql := "", params := [] }, n)) "u" 3 rfl

/-- C8: for every field, `isin` of an empty tuple renders to the SQL text
`FALSE` with no bound parameters, and `notin` of an empty tuple renders to
the field's rendered name followed by ` IS NOT NULL`, also with no bound
parameters (in both cases the global parameter counter is untouched). -/
theorem claim_C8 (f : Field) (n : Nat) :
    (f.isin (.iter []) n).1.sql = "FALSE" ∧
    (f.isin (.iter []) n).1.params = [] ∧
    (f.notin (.iter []) n).1.sql = f.render ++ " IS NOT NULL" ∧
    (f.notin (.iter []) n).1.params = [] ∧
    (f.isin (.iter []) n).2 = n ∧ (f.notin (.iter []) n).2 = n :=
  ⟨rfl, rfl, rfl, rfl, rfl, rfl⟩

end WhereB

namespace QueryB

/-- Helper `_build_where` from `builder/query.py`: prepend ` WHERE ` when
the clause is non-empty (Python truthiness of the string). -/
def buildWhere (whereClause : String) : String :=
  if whereClause ≠ "" then " WHERE " ++ whereClause else ""

/-- Helper `_build_returning`: ` RETURNING a,b,...` when the column list is
non-empty. -/
def buildReturning (returning : List String) : String :=
  if returning ≠ [] then " RETURNING " ++ String.intercalate "," returning else ""

/-- The SET-list accumulation loop of `query_update`: walk the field→value
map in order, skipping fields whose value is `None` unless `force_null`,
and collect the parameter map (`val_<col> ↦ value`) and the
`<col> = %(val_<col>)s` fragments. -/
def updateSets {α : Type} (forceNull : Bool) :
    List (String × Option α) → List (String × Option α) × List String
  | [] => ([], [])
  | (col, val) :: rest =>
    let r := updateSets forceNull rest
    if val.isNone && !forceNull then r
    else (("val_" ++ col, val) :: r.1, (col ++ " = %(val_" ++ col ++ ")s") :: r.2)

/-- `query_update(table, values, where_clause, returning, force_null)` from
`builder/query.py`; returns the empty statement and empty parameter map
when no field survives the null filter. -/
def query_update {α : Type} (table : String) (values : List (String × Option α))
    (whereClause : String) (returning : List String) (forceNull : Bool) :
    String × List (String × Option α) :=
  let r := updateSets forceNull values
  if r.2 = [] then ("", [])
  else ("UPDATE " ++ table ++ " SET " ++ String.intercalate "," r.2 ++
        buildWhere whereClause ++ buildReturning returning, r.1)

/-- The loop of `query_update` is the filter of surviving fields, mapped to
parameter entries and SET fragments. -/
theorem updateSets_eq {α : Type} (forceNull : Bool) (values : List (String × Option α)) :
    updateSets forceNull values =
      ((values.filter (fun kv => !(kv.2.isNone && !forceNull))).map
          (fun kv => ("val_" ++ kv.1, kv.2)),
       (values.filter (fun kv => !(kv.2.isNone && !forceNull))).map
          (fun kv => kv.1 ++ " = %(val_" ++ kv.1 ++ ")s")) := by
  induction values with
  | nil => rfl
  | cons kv rest ih =>
    obtain ⟨col, val⟩ := kv
    simp only [updateSets, ih, List.filter_cons]
    by_cases h : (val.isNone && !forceNull) = true
    · simp [h]
    · simp [h]

/-- C9: `query_update` skips every field whose value is absent unless
`force_null` is set; when no field survives it returns the empty statement
and empty parameter map; when at least one survives, the statement sets
exactly the surviving fields in order and the parameter map binds exactly
their values. -/
theorem claim_C9 {α : Type} (table : String) (values : List (String × Option α))
    (whereClause : String) (returning : List String) (forceNull : Bool) :
    ((values.filter (fun kv => !(kv.2.isNone && !forceNull))) = [] →
      query_update table values whereClause returning forceNull = ("", [])) ∧
    ((values.filter (fun kv => !(kv.2.isNone && !forceNull))) ≠ [] →
      query_update table values whereClause returning forceNull =
        ("UPDATE " ++ table ++ " SET " ++
          String.intercalate ","
            ((values.filter (fun kv => !(kv.2.isNone && !forceNull))).map
              (fun kv => kv.1 ++ " = %(val_" ++ kv.1 ++ ")s")) ++
          buildWhere whereClause ++ buildReturning returning,
         (values.filter (fun kv => !(kv.2.isNone && !forceNull))).map
            (fun kv => ("val_" ++ kv.1, kv.2)))) := by
  constructor
  · intro h
    unfold query_update
    rw [updateSets_eq, h]
    simp
  · intro h
    unfold query_update
    rw [updateSets_eq]
    simp only [List.map_eq_nil_iff]
    rw [if_neg (by simpa using h)]

/-- Witness for C9: one surviving field (`a`), one skipped `None` field
(`b`), `force_null` unset. -/
theorem claim_C9_witness :
    query_update "t" [("a", some 1), ("b", (Option.none : Option Nat))] "w" [] false =
      ("UPDATE t SET a = %(val_a)s WHERE w", [("val_a", some 1)]) := by
  have h := (claim_C9 "t" [("a", some 1), ("b", (Option.none : Option Nat))] "w" [] false).2
    (by decide)
  simpa using h

end QueryB

namespace Config

/-- `DEFAULT_SECTION` from `backend_tools/configuration.py`. -/
def DEFAULT_SECTION : String := "common"

/-- A merged section map: section name → ordered key/value list, with
string values as the INI parser produces them (possibly empty). -/
def Sections : Type := List (String × List (String × String))

/-- `ConfigEnv` state after `reload`: the merged map and the computed
active-environment section name. -/
structure ConfigEnv where
  cfg : Sections
  secEnvironment : String

/-- Lookup of `section.get(value_name)` on the raw section map;
`Option.none` both for a missing section and a missing key. -/
def sectionsGet (cfg : Sections) (valueName sectionName : String) : Option String :=
  match cfg.find? (fun s => s.1 == sectionName) with
  | some s => (s.2.find? (fun kv => kv.1 == valueName)).map (fun kv => kv.2)
  | Option.none => Option.none

/-- `ConfigEnv._cfg_value`. -/
def cfgValueRaw (c : ConfigEnv) (valueName sectionName : String) : Option String :=
  sectionsGet c.cfg valueName sectionName

/-- Python truthiness of an optional string: `None` and `''` are falsy. -/
def truthy : Option String → Bool
  | some s => s != ""
  | Option.none => false

/-- Python `a or b` on optional strings. -/
def pyOr (a b : Option String) : Option String := if truthy a then a else b

/-- `ConfigEnv._init_service_props`: the active-environment section name is
`common`'s `ENVIRONMENT_SECTION` value `or DEFAULT_SECTION`. -/
def initEnvSection (cfg : Sections) : String :=
  match pyOr (sectionsGet cfg "ENVIRONMENT_SECTION" DEFAULT_SECTION) (some DEFAULT_SECTION) with
  | some s => s
  | Option.none => DEFAULT_SECTION

/-- A `ConfigEnv` as produced by `reload` from an already-merged section
map (the global/local file merge itself is not at issue in any claim). -/
def mkConfigEnv (cfg : Sections) : ConfigEnv :=
  { cfg := cfg, secEnvironment := initEnvSection cfg }

/-- `ConfigEnv.get_value(value_name, section_name, cast, default)` for the
`cast=None` call shape every claim uses: the `or`-chain over the given
section, the active-environment section and `common`, then the default when
the chain ends in `None`. -/
def get_value (c : ConfigEnv) (valueName sectionName : String)
    (default : Option String) : Option String :=
  let value :=
    pyOr (pyOr (cfgValueRaw c valueName sectionName)
               (cfgValueRaw c valueName c.secEnvironment))
         (cfgValueRaw c valueName DEFAULT_SECTION)
  match value with
  | Option.none => default
  | some v => some v

/-- `cfg_value(value_name, section_name, default)`, the module-level entry
point delegating to `get_value` on the process-wide `ConfigEnv`. -/
def cfg_value (c : ConfigEnv) (valueName sectionName : String)
    (default : Option String) : Option String :=
  get_value c valueName sectionName default

theorem pyOr_truthy {a b : Option String} (h : truthy a = true) :
    pyOr a b = a := by
  unfold pyOr
  rw [h]
  rfl

theorem pyOr_falsy {a b : Option String} (h : truthy a = false) :
    pyOr a b = b := by
  unfold pyOr
  rw [h]
  rfl

theorem truthy_some {a : Option String} (h : truthy a = true) : ∃ v, a = some v := by
  cases a with
  | none => simp [truthy] at h
  | some v => exact ⟨v, rfl⟩

theorem get_value_match (c : ConfigEnv) (k sec : String) (d : Option String) :
    cfg_value c k sec d =
      match pyOr (pyOr (cfgValueRaw c k sec) (cfgValueRaw c k c.secEnvironment))
          (cfgValueRaw c k DEFAULT_SECTION) with
      | Option.none => d
      | some v => some v := rfl

/-- The claim's concrete scenario: `common.k = "c"`,
`envsection.k = "e"`, active environment `envsection`, `myscript.k`
absent. -/
def scenarioA : ConfigEnv :=
  mkConfigEnv
    [("common", [("ENVIRONMENT_SECTION", "envsection"), ("k", "c")]),
     ("envsection", [("k", "e")])]

/-- The same scenario with `myscript.k = "m"` additionally set. -/
def scenarioB : ConfigEnv :=
  mkConfigEnv
    [("common", [("ENVIRONMENT_SECTION", "envsection"), ("k", "c")]),
     ("envsection", [("k", "e")]),
     ("myscript", [("k", "m")])]

/-- The scenario refuting the claim as stated: `myscript.k` is present but
holds the empty string. -/
def scenarioEmpty : ConfigEnv :=
  mkConfigEnv
    [("common", [("ENVIRONMENT_SECTION", "envsection"), ("k", "c")]),
     ("envsection", [("k", "e")]),
     ("myscript", [("k", "")])]

/-- C6 counterexample: the claim says the first non-absent hit wins, but a
present-and-empty value in the requested section is skipped by the `or`
chain: with `myscript.k = ""` the call returns `"e"` from the environment
section, not the stored `""`; hence the universal first-non-absent-hit
statement is false. -/
theorem claim_C6_counterexample :
    cfgValueRaw scenarioEmpty "k" "myscript" = some "" ∧
    cfg_value scenarioEmpty "k" "myscript" Option.none = some "e" ∧
    ¬ (∀ (c : ConfigEnv) (k sec : String) (d : Option String) (v : String),
        cfgValueRaw c k sec = some v → cfg_value c k sec d = some v) := by
  refine ⟨rfl, rfl, fun h => ?_⟩
  have h2 := h scenarioEmpty "k" "myscript" Option.none "" rfl
  exact absurd h2 (by decide)

/-- C6 (amended): `get_value` tries the given section, the
active-environment section and `common`, in that order, and the first
present-and-non-empty hit wins; when no tier holds a non-empty value the
`common` tier's value is returned if present, otherwise the default; the
claim's concrete scenario holds as stated. -/
theorem claim_C6 :
    (∀ (c : ConfigEnv) (k sec : String) (d : Option String),
      truthy (cfgValueRaw c k sec) = true →
      cfg_value c k sec d = cfgValueRaw c k sec) ∧
    (∀ (c : ConfigEnv) (k sec : String) (d : Option String),
      truthy (cfgValueRaw c k sec) = false →
      truthy (cfgValueRaw c k c.secEnvironment) = true →
      cfg_value c k sec d = cfgValueRaw c k c.secEnvironment) ∧
    (∀ (c : ConfigEnv) (k sec : String) (d : Option String) (v : String),
      truthy (cfgValueRaw c k sec) = false →
      truthy (cfgValueRaw c k c.secEnvironment) = false →
      cfgValueRaw c k DEFAULT_SECTION = some v →
      cfg_value c k sec d = some v) ∧
    (∀ (c : ConfigEnv) (k sec : String) (d : Option String),
      truthy (cfgValueRaw c k sec) = false →
      truthy (cfgValueRaw c k c.secEnvironment) = false →
      cfgValueRaw c k DEFAULT_SECTION = Option.none →
      cfg_value c k sec d = d) ∧
    cfg_value scenarioA "k" "myscript" Option.none = some "e" ∧
    cfg_value scenarioB "k" "myscript" Option.none = some "m" := by
  refine ⟨?_, ?_, ?_, ?_, rfl, rfl⟩
  · intro c k sec d h
    rw [get_value_match, pyOr_truthy (by rw [pyOr_truthy h]; exact h), pyOr_truthy h]
    obtain ⟨v, hv⟩ := truthy_some h
    rw [hv]
  · intro c k sec d h1 h2
    rw [get_value_match, pyOr_falsy h1,
      pyOr_truthy h2]
    obtain ⟨v, hv⟩ := truthy_some h2
    rw [hv]
  · intro c k sec d v h1 h2 h3
    rw [get_value_match, pyOr_falsy h1, pyOr_falsy h2, h3]
  · intro c k sec d h1 h2 h3
    rw [get_value_match, pyOr_falsy h1, pyOr_falsy h2, h3]

/-- Witness for C6: the environment-tier case at the concrete scenario
(requested section absent, environment section hit). -/
theorem claim_C6_witness :
    cfg_value scenarioA "k" "myscript" Option.none
      = cfgValueRaw scenarioA "k" scenarioA.secEnvironment :=
  claim_C6.2.1 scenarioA "k" "myscript" Option.none (by decide) (by decide)

end Config

namespace AccessToken

/-- Error codes registered in `access_token.py`. -/
def ERR_OK : Nat := 0

def ERR_ACCESS_TOKEN_EXPIRED : Nat := 101

def ERR_REFRESH_TOKEN_EXPIRED : Nat := 102

def TOKEN_LENGTH : Nat := 64

/-- `ttl_access_token` default (3600 s). -/
def TTL_ACCESS_TOKEN : Nat := 3600

/-- `ttl_refresh_token` default (60 days). -/
def TTL_REFRESH_TOKEN : Nat := 3600 * 24 * 60

/-- One row of the `<schema>.token` table; expirations are epoch seconds. -/
structure TokenRow where
  user_id : Nat
  refresh : String
  refresh_expiration : Nat
  access : String
  access_expiration : Nat
deriving DecidableEq

/-- The `Token` ORM object returned to callers. -/
structure Token where
  user_id : Nat
  refresh : String
  refresh_expiration : Nat
  access : String
  access_expiration : Nat
deriving DecidableEq

/-- Python truthiness of the optional arguments of `tokens_delete`
(`0`, `''` and `None` are falsy). -/
def optNatTruthy : Option Nat → Bool
  | some k => k != 0
  | Option.none => false

def optStrTruthy : Option String → Bool
  | some s => s != ""
  | Option.none => false

/-- `tokens_create(conn_id, user_id)`: insert a fresh pair expiring at
`now + TTL`; the two generated 64-character tokens are the oracles
`newRefresh`/`newAccess`.  Returns the `Token` object and the new table. -/
def tokens_create (table : List TokenRow) (now : Nat)
    (newRefresh newAccess : String) (user_id : Nat) : Token × List TokenRow :=
  let row : TokenRow :=
    { user_id := user_id, refresh := newRefresh,
      refresh_expiration := now + TTL_REFRESH_TOKEN,
      access := newAccess, access_expiration := now + TTL_ACCESS_TOKEN }
  ({ user_id := user_id, refresh := newRefresh,
     refresh_expiration := now + TTL_REFRESH_TOKEN,
     access := newAccess, access_expiration := now + TTL_ACCESS_TOKEN },
   table ++ [row])

/-- `tokens_delete(conn_id, user_id, access, refresh)`: no-op when every
argument is falsy, otherwise delete by the first truthy argument in the
priority order `user_id`, `access`, `refresh`. -/
def tokens_delete (table : List TokenRow) (user_id : Option Nat)
    (access refresh : Option String) : List TokenRow :=
  if !optNatTruthy user_id && !optStrTruthy access && !optStrTruthy refresh then table
  else if optNatTruthy user_id then
    table.filter (fun r => !(r.user_id == user_id.getD 0))
  else if optStrTruthy access then
    table.filter (fun r => !(r.access == access.getD ""))
  else
    table.filter (fun r => !(r.refresh == refresh.getD ""))

/-- `check_access_token(conn_id, access)`: the single-row lookup takes the
first row in table order; a missing row or a passed expiration yields the
access-expired error. -/
def check_access_token (table : List TokenRow) (now : Nat) (access : String) :
    Option Nat × Nat :=
  match (table.filter (fun r => r.access == access)).head? with
  | Option.none => (Option.none, ERR_ACCESS_TOKEN_EXPIRED)
  | some row =>
    if now < row.access_expiration then (some row.user_id, ERR_OK)
    else (Option.none, ERR_ACCESS_TOKEN_EXPIRED)

/-- `refresh_tokens(conn_id, refresh)`: look up by refresh value; if
absent, fail with the refresh-expired error; if found, delete the old row
first, then check the stored refresh expiration — issue a brand-new pair on
success, fail (with the row already deleted) otherwise. -/
def refresh_tokens (table : List TokenRow) (now : Nat)
    (newRefresh newAccess : String) (refresh : String) :
    (Option Token × Nat) × List TokenRow :=
  match (table.filter (fun r => r.refresh == refresh)).head? with
  | Option.none => ((Option.none, ERR_REFRESH_TOKEN_EXPIRED), table)
  | some row =>
    let table1 := tokens_delete table Option.none Option.none (some refresh)
    if now < row.refresh_expiration then
      let p := tokens_create table1 now newRefresh newAccess row.user_id
      ((some p.1, ERR_OK), p.2)
    else ((Option.none, ERR_REFRESH_TOKEN_EXPIRED), table1)

theorem tokens_delete_refresh (table : List TokenRow) (r : String) (hr : r ≠ "") :
    tokens_delete table Option.none Option.none (some r)
      = table.filter (fun q => !(q.refresh == r)) := by
  unfold tokens_delete
  have ht : optStrTruthy (some r) = true := by
    simp [optStrTruthy, hr]
  rw [ht]
  rfl

/-- C1: when the row for refresh value `r` is found, `refresh_tokens`
deletes it whether or not it is expired; a still-valid expiration yields a
brand-new pair for the same user with code 0, otherwise the refresh-expired
error (102); after a successful call, a second call with the same `r`
fails with 102, and `check_access_token` on the deleted pair's access value
(no other row carrying it) also fails.  `r` is a real (non-empty) token
value and the freshly generated tokens differ from the consumed ones. -/
theorem claim_C1 (table : List TokenRow) (now now2 : Nat)
    (r newRefresh newAccess : String) (row : TokenRow)
    (hfound : (table.filter (fun q => q.refresh == r)).head? = some row)
    (hr : r ≠ "") (hfresh : newRefresh ≠ r) :
    (¬ now < row.refresh_expiration →
      refresh_tokens table now newRefresh newAccess r
        = ((Option.none, ERR_REFRESH_TOKEN_EXPIRED),
           table.filter (fun q => !(q.refresh == r)))) ∧
    (now < row.refresh_expiration →
      refresh_tokens table now newRefresh newAccess r
        = ((some { user_id := row.user_id, refresh := newRefresh,
                   refresh_expiration := now + TTL_REFRESH_TOKEN,
                   access := newAccess, access_expiration := now + TTL_ACCESS_TOKEN },
            ERR_OK),
           table.filter (fun q => !(q.refresh == r)) ++
             [{ user_id := row.user_id, refresh := newRefresh,
                refresh_expiration := now + TTL_REFRESH_TOKEN,
                access := newAccess, access_expiration := now + TTL_ACCESS_TOKEN }])) ∧
    (now < row.refresh_expiration → ∀ (now3 : Nat) (nr na : String),
      (refresh_tokens (refresh_tokens table now newRefresh newAccess r).2 now3 nr na r).1
        = (Option.none, ERR_REFRESH_TOKEN_EXPIRED)) ∧
    (now < row.refresh_expiration →
      (∀ q ∈ table, q.access = row.access → q.refresh = r) →
      newAccess ≠ row.access →
      check_access_token (refresh_tokens table now newRefresh newAccess r).2 now2 row.access
        = (Option.none, ERR_ACCESS_TOKEN_EXPIRED)) := by
  have hdel := tokens_delete_refresh table r hr
  have hmain : refresh_tokens table now newRefresh newAccess r =
      if now < row.refresh_expiration then
        ((some { user_id := row.user_id, refresh := newRefresh,
                 refresh_expiration := now + TTL_REFRESH_TOKEN,
                 access := newAccess, access_expiration := now + TTL_ACCESS_TOKEN },
          ERR_OK),
         table.filter (fun q => !(q.refresh == r)) ++
           [{ user_id := row.user_id, refresh := newRefresh,
              refresh_expiration := now + TTL_REFRESH_TOKEN,
              access := newAccess, access_expiration := now + TTL_ACCESS_TOKEN }])
      else ((Option.none, ERR_REFRESH_TOKEN_EXPIRED),
            table.filter (fun q => !(q.refresh == r))) := by
    unfold refresh_tokens
    rw [hfound, hdel]
    dsimp only
    by_cases h : now < row.refresh_expiration
    · rw [if_pos h, if_pos h]
      rfl
    · rw [if_neg h, if_neg h]
  have hfilter_nil : ∀ (p : TokenRow → Bool),
      (∀ q ∈ table.filter (fun q => !(q.refresh == r)), ¬ p q = true) →
      ((table.filter (fun q => !(q.refresh == r))).filter p) = [] :=
    fun p hp => List.filter_eq_nil_iff.mpr hp
  refine ⟨?_, ?_, ?_, ?_⟩
  · intro h
    rw [hmain, if_neg h]
  · intro h
    rw [hmain, if_pos h]
  · intro h now3 nr na
    rw [hmain, if_pos h]
    unfold refresh_tokens
    rw [List.filter_append]
    have h1 : (table.filter (fun q => !(q.refresh == r))).filter
        (fun q => q.refresh == r) = [] := by
      apply hfilter_nil
      intro q hq
      have hmem := List.mem_filter.mp hq
      simp only [Bool.not_eq_true'] at hmem
      simp [hmem.2]
    have h2 : (([{ user_id := row.user_id, refresh := newRefresh,
                   refresh_expiration := now + TTL_REFRESH_TOKEN,
                   access := newAccess,
                   access_expiration := now + TTL_ACCESS_TOKEN }] : List TokenRow).filter
        (fun q => q.refresh == r)) = [] := by
      simp [hfresh]
    rw [h1, h2]
    rfl
  · intro h hacc hna
    rw [hmain, if_pos h]
    unfold check_access_token
    rw [List.filter_append]
    have h1 : (table.filter (fun q => !(q.refresh == r))).filter
        (fun q => q.access == row.access) = [] := by
      apply hfilter_nil
      intro q hq
      have hmem := List.mem_filter.mp hq
      simp only [Bool.not_eq_true'] at hmem
      intro hcontra
      have heq : q.access = row.access := by simpa using hcontra
      have hrq : q.refresh = r := hacc q hmem.1 heq
      rw [hrq] at hmem
      simp at hmem
    have h2 : (([{ user_id := row.user_id, refresh := newRefresh,
                   refresh_expiration := now + TTL_REFRESH_TOKEN,
                   access := newAccess,
                   access_expiration := now + TTL_ACCESS_TOKEN }] : List TokenRow).filter
        (fun q => q.access == row.access)) = [] := by
      simp [hna]
    rw [h1, h2]
    rfl

/-- Witness for C1: a one-row table whose refresh value `r1` is rotated at
a time before its expiration. -/
theorem claim_C1_witness :
    refresh_tokens [⟨7, "r1", 100, "a1", 50⟩] 10 "r2" "a2" "r1"
      = ((some ⟨7, "r2", 10 + TTL_REFRESH_TOKEN, "a2", 10 + TTL_ACCESS_TOKEN⟩, ERR_OK),
         [⟨7, "r2", 10 + TTL_REFRESH_TOKEN, "a2", 10 + TTL_ACCESS_TOKEN⟩]) := by
  have h := (claim_C1 [⟨7, "r1", 100, "a1", 50⟩] 10 0 "r1" "r2" "a2"
      ⟨7, "r1", 100, "a1", 50⟩ rfl (by decide) (by decide)).2.1 (by decide)
  exact h

end AccessToken

namespace Auth

/-- Error codes from `helper/errors.py` and `backend_tools/errors.py`. -/
def ERR_OK : Nat := 0

def ERR_WRONG_LOGIN_PARAMS : Nat := 1011

def ERR_USER_BLOCKED : Nat := 1012

def ERR_NO_ACTIVATION : Nat := 8001

/-- `TOKEN_PASSWORD_RESET` from `backend_rest_api/confirm_token.py`. -/
def TOKEN_PASSWORD_RESET : String := "pr"

/-- The user-row columns touched by `user_login`/`user_forgot_email`. -/
structure UserRec where
  id : Nat
  email : String
  hash : Option String
  deleted : Bool
  person_name : String

/-- One `confirm_token` row. -/
structure ConfirmRow where
  user_id : Nat
  token : String
  ttype : String
  created_at : Nat

/-- An outbound mail event, recorded for side-effect accounting. -/
structure MailEvent where
  user_id : Nat
  token : String

/-- Database and outbox state visible to the auth controller. -/
structure DBState where
  activated : List UserRec
  pending : List UserRec
  tokens : List AccessToken.TokenRow
  confirmTokens : List ConfirmRow
  mails : List MailEvent

/-- Python `str.lower()`: the per-character lowercase map. -/
def toLowerStr (s : String) : String := String.mk (s.data.map Char.toLower)

/-- Modelled from the spec: the defining body of `datasource.user.select_users`
is not in the tree (only its call sites are).  Per the spec, `user_get_by`
with `by_col='email'` resolves rows of the chosen relation by
case-insensitive email equality (`lower(email) = lower(value)`); `users_get`
keys the rows by id into a dict whose `popitem` pops the last-inserted
item, so the last matching row is returned. -/
def user_get_by_email (table : List UserRec) (email : String) : Option UserRec :=
  (table.filter (fun u => toLowerStr u.email == toLowerStr email)).getLast?

/-- `check_salted_hash(password, pswd_hash)` from `backend_tools/misc.py`:
a missing stored hash fails; otherwise the external bcrypt verifier
(`checkpw`, an oracle here) decides. -/
def check_salted_hash (checkpw : String → String → Bool) (password : String)
    (pswdHash : Option String) : Bool :=
  match pswdHash with
  | Option.none => false
  | some h => checkpw password h

/-- `user_login(conn_id, email, password)` from `controller/auth.py`:
pending account → needs-activation error; unknown email or wrong password →
wrong-login error; deleted flag → blocked error; otherwise purge the user's
token rows and issue a fresh pair (generated values are oracles). -/
def user_login (st : DBState) (checkpw : String → String → Bool) (now : Nat)
    (newRefresh newAccess : String) (email password : String) :
    (Option (AccessToken.Token × UserRec) × Nat) × DBState :=
  match user_get_by_email st.pending email with
  | some _ => ((Option.none, ERR_NO_ACTIVATION), st)
  | Option.none =>
    match user_get_by_email st.activated email with
    | Option.none => ((Option.none, ERR_WRONG_LOGIN_PARAMS), st)
    | some user =>
      if !check_salted_hash checkpw password user.hash then
        ((Option.none, ERR_WRONG_LOGIN_PARAMS), st)
      else if user.deleted then ((Option.none, ERR_USER_BLOCKED), st)
      else
        let t1 := AccessToken.tokens_delete st.tokens (some user.id)
          Option.none Option.none
        let p := AccessToken.tokens_create t1 now newRefresh newAccess user.id
        ((some (p.1, user), ERR_OK), { st with tokens := p.2 })

/-- `confirm_token_delete(conn_id, user_id=uid, token_type='pr')` as called
by `remove_password_reset_tokens`: both supplied filters are ANDed; a falsy
(zero) user id drops that filter, as in the source's truthiness checks. -/
def remove_password_reset_tokens (rows : List ConfirmRow) (user_id : Nat) :
    List ConfirmRow :=
  if user_id = 0 then rows.filter (fun c => !(c.ttype == TOKEN_PASSWORD_RESET))
  else rows.filter (fun c => !(c.user_id == user_id && c.ttype == TOKEN_PASSWORD_RESET))

/-- `confirm_token_create` for type `pr`: insert the generated token (an
oracle here) with the creation time. -/
def create_password_reset_token (rows : List ConfirmRow) (user_id : Nat)
    (tok : String) (now : Nat) : ConfirmRow × List ConfirmRow :=
  ({ user_id := user_id, token := tok, ttype := TOKEN_PASSWORD_RESET, created_at := now },
   rows ++ [{ user_id := user_id, token := tok, ttype := TOKEN_PASSWORD_RESET,
              created_at := now }])

/-- `gen_new_reset_token(conn_id, user_id)` from `domain/auth.py`: purge
the user's existing password-reset tokens, then issue a new one. -/
def gen_new_reset_token (rows : List ConfirmRow) (user_id : Nat)
    (tok : String) (now : Nat) : ConfirmRow × List ConfirmRow :=
  create_password_reset_token (remove_password_reset_tokens rows user_id) user_id tok now

/-- Modelled from the spec: `domain/mail.py` (`send_forgot`) is an external
collaborator not in the tree; the controller calls it with
`(conn_id, user, token)`, which we record as one outbound mail event. -/
def send_forgot (mails : List MailEvent) (u : UserRec) (tok : ConfirmRow) :
    List MailEvent :=
  mails ++ [{ user_id := u.id, token := tok.token }]

/-- `user_forgot_email(conn_id, email)` from `controller/auth.py`: an
unknown email logs a warning and reports success with no side effect;
a known email issues a fresh reset token and sends the mail, reporting the
same `(None, ERR_OK)` shape. -/
def user_forgot_email (st : DBState) (tok : String) (now : Nat) (email : String) :
    (Option Unit × Nat) × DBState :=
  match user_get_by_email st.activated email with
  | Option.none => ((Option.none, ERR_OK), st)
  | some user =>
    let p := gen_new_reset_token st.confirmTokens user.id tok now
    let mails := send_forgot st.mails user p.1
    ((Option.none, ERR_OK), { st with confirmTokens := p.2, mails := mails })

/-- C2: an activated user with `deleted = true`, the matching email (the
only activated row with it), the correct password and no pending row fails
login with the blocked error (1012), and the token table (indeed the whole
database state) is untouched. -/
theorem claim_C2 (st : DBState) (checkpw : String → String → Bool) (now : Nat)
    (newRefresh newAccess email password : String) (u : UserRec)
    (hpend : user_get_by_email st.pending email = Option.none)
    (hact : user_get_by_email st.activated email = some u)
    (hdel : u.deleted = true)
    (hpw : check_salted_hash checkpw password u.hash = true) :
    user_login st checkpw now newRefresh newAccess email password
      = ((Option.none, ERR_USER_BLOCKED), st) ∧
    (user_login st checkpw now newRefresh newAccess email password).2.tokens
      = st.tokens := by
  have hmain : user_login st checkpw now newRefresh newAccess email password
      = ((Option.none, ERR_USER_BLOCKED), st) := by
    unfold user_login
    rw [hpend, hact]
    dsimp only
    rw [hpw, hdel]
    rfl
  exact ⟨hmain, by rw [hmain]⟩

/-- Witness for C2: a single deleted activated user with a matching
password oracle. -/
theorem claim_C2_witness :
    user_login
        { activated := [{ id := 1, email := "a@b.c", hash := some "H",
                          deleted := true, person_name := "N" }],
          pending := [], tokens := [], confirmTokens := [], mails := [] }
        (fun _ _ => true) 0 "r" "a" "a@b.c" "pw"
      = ((Option.none, ERR_USER_BLOCKED),
         { activated := [{ id := 1, email := "a@b.c", hash := some "H",
                           deleted := true, person_name := "N" }],
           pending := [], tokens := [], confirmTokens := [], mails := [] }) :=
  (claim_C2
    { activated := [{ id := 1, email := "a@b.c", hash := some "H",
                      deleted := true, person_name := "N" }],
      pending := [], tokens := [], confirmTokens := [], mails := [] }
    (fun _ _ => true) 0 "r" "a" "a@b.c" "pw"
    { id := 1, email := "a@b.c", hash := some "H",
      deleted := true, person_name := "N" }
    rfl (by rfl) rfl rfl).1

/-- C3: an email matching no activated user makes `user_forgot_email`
return `(None, 0)` with no confirm-token or mail side effect (the state is
untouched), and every call — known or unknown email — returns the same
`(None, 0)` shape. -/
theorem claim_C3 (st : DBState) (tok : String) (now : Nat) (email : String)
    (hunknown : user_get_by_email st.activated email = Option.none) :
    user_forgot_email st tok now email = ((Option.none, ERR_OK), st) ∧
    (user_forgot_email st tok now email).2.confirmTokens = st.confirmTokens ∧
    (user_forgot_email st tok now email).2.mails = st.mails ∧
    (∀ (st2 : DBState) (tok2 : String) (now2 : Nat) (email2 : String),
      (user_forgot_email st2 tok2 now2 email2).1 = (Option.none, ERR_OK)) := by
  have hmain : user_forgot_email st tok now email = ((Option.none, ERR_OK), st) := by
    unfold user_forgot_email
    rw [hunknown]
  refine ⟨hmain, by rw [hmain], by rw [hmain], ?_⟩
  intro st2 tok2 now2 email2
  unfold user_forgot_email
  match h : user_get_by_email st2.activated email2 with
  | Option.none => rfl
  | some user => rfl

/-- Witness for C3: the empty database and any email. -/
theorem claim_C3_witness :
    user_forgot_email
        { activated := [], pending := [], tokens := [], confirmTokens := [], mails := [] }
        "t" 0 "x@y.z"
      = ((Option.none, ERR_OK),
         { activated := [], pending := [], tokens := [], confirmTokens := [],
           mails := [] }) :=
  (claim_C3
    { activated := [], pending := [], tokens := [], confirmTokens := [], mails := [] }
    "t" 0 "x@y.z" rfl).1

end Auth
